import Mathlib

/-!
Shallow embedding of the daily usage-submission scheduler of the
React-Native health-diary app, together with proofs about its behaviour.

Embedded source files:
  * `src/services/usageScheduler.ts` — the daily submission gate
    (`runIfDueNow`, `isSubmissionDue`, `collectAndSubmit`,
    `ensureUsageQuestions`, `setDailyTargetTime`, `getDailyTargetTime`,
    and the pure helpers `toISODate`, `toHHmm`, `toMinutesSinceMidnight`,
    `hhmmToMinutes`, `msToMinutes`).
  * `src/services/usageNative.ts` — `hasUsageAccess`,
    `isUsageStatsAvailable`.
  * `src/services/supabase.ts` — the remote-store operations the gate
    uses (`supaGetQuestions`, `supaInsertQuestion`, `supaSetDiaryEntry`,
    `isSupabaseConfigured`).

Modelling conventions:
  * `AsyncStorage` is the `LocalStore` record; the Supabase tables are the
    `RemoteStore` record; both are threaded explicitly through every
    operation.  `World` bundles the two.
  * Promise rejection / thrown JS exceptions are `Except` errors; an
    operation that can throw returns `Except SchedulerError _ × State`
    so that the state at the moment of the throw is still visible
    (JS exceptions do not roll state back).
  * The ambient platform facts (Platform.OS, env configuration, native
    module linkage, the native permission query) are the read-only `Env`
    record.  `Env.usageAccessGranted = none` models the native
    `isUsageAccessGranted()` call itself throwing.
  * The behaviour of the external usage collector on one invocation is an
    input of type `Except Unit UsageSummary` (`.error` = the collector
    call rejects).
  * Write counters (`setCount`, `questionInserts`, `entryWrites`) count
    the effectful store calls so that "performs zero writes" is a real
    statement and not merely "state extensionally unchanged".
  * JS numbers that are only ever integers in the embedded code are
    modelled as `Int`/`Nat`; `Math.round(x)` for `x = ms / 60000` is
    `⌊(ms + 30000) / 60000⌋` with floor division (exact for JS
    `Math.round`, which is `⌊x + 1/2⌋`).
-/

/-! ## Pure helpers of `usageScheduler.ts` -/

/-- `String(n).padStart(2, "0")` for a natural number. -/
def pad2 (n : Nat) : String :=
  if n < 10 then "0" ++ toString n else toString n

/-- A JavaScript `Date`, restricted to the local-time getter results the
scheduler reads.  `getMonth` is 0-based, exactly like in JS. -/
structure JsDate where
  getFullYear : Nat
  getMonth : Nat
  getDate : Nat
  getHours : Nat
  getMinutes : Nat
deriving DecidableEq, Repr

/-- `toISODate` (usageScheduler.ts): local `YYYY-MM-DD`. -/
def toISODate (d : JsDate) : String :=
  toString d.getFullYear ++ "-" ++ pad2 (d.getMonth + 1) ++ "-" ++ pad2 d.getDate

/-- `toHHmm` (usageScheduler.ts). -/
def toHHmm (d : JsDate) : String :=
  pad2 d.getHours ++ ":" ++ pad2 d.getMinutes

/-- `toMinutesSinceMidnight` (usageScheduler.ts). -/
def toMinutesSinceMidnight (d : JsDate) : Nat :=
  d.getHours * 60 + d.getMinutes

/-- `"x".split(":")` on the character list of a JS string. -/
def splitOnColon : List Char → List (List Char)
  | [] => [[]]
  | c :: rest =>
    if c = ':' then [] :: splitOnColon rest
    else
      match splitOnColon rest with
      | h :: t => (c :: h) :: t
      | [] => [[c]]

/-- JS `Number(s)` for the strings reachable here (digit strings, or pieces
of a regex-checked `HH:mm` value): `Number("") = 0`, digit strings parse as
decimal, anything else is `NaN` (modelled as `none`). -/
def jsNumberDigits (cs : List Char) : Option Nat :=
  if cs.all Char.isDigit then
    some (cs.foldl (fun a c => a * 10 + (c.toNat - 48)) 0)
  else none

/-- `hhmmToMinutes` (usageScheduler.ts):
`const [h, m] = hhmm.split(":").map(Number); return h * 60 + m;`.
`none` models a `NaN` result. -/
def hhmmToMinutes (hhmm : String) : Option Nat :=
  match splitOnColon hhmm.toList with
  | h :: m :: _ =>
    match jsNumberDigits h, jsNumberDigits m with
    | some hv, some mv => some (hv * 60 + mv)
    | _, _ => none
  | _ => none

/-- `msToMinutes` (usageScheduler.ts):
`Math.max(0, Math.round(ms / 60000))`. -/
def msToMinutes (ms : Int) : Int :=
  max 0 ((ms + 30000).fdiv 60000)

/-- The test of the regex `^\d{2}:\d{2}$` used by `setDailyTargetTime` and
`getDailyTargetTime` (`\d` is ASCII `[0-9]` in JS). -/
def matchesHHmm (s : String) : Bool :=
  match s.toList with
  | [a, b, c, d, e] => a.isDigit && b.isDigit && c == ':' && d.isDigit && e.isDigit
  | _ => false

/-! ## Data model -/

/-- The four auto-question texts (constants of usageScheduler.ts). -/
def qTextTotal : String := "Wie lange warst du heute am Handy? (Automatisch)"

/-- `Q_TEXT_SOCIAL`. -/
def qTextSocial : String := "Zeit auf Social Media heute (Automatisch)"

/-- `Q_TEXT_MUSIC`. -/
def qTextMusic : String := "Zeit Musik/Audio heute (Automatisch)"

/-- `Q_TEXT_LAST_APP`. -/
def qTextLastApp : String := "Letzte App vor dem Schlafen (Automatisch)"

/-- `DEFAULT_DAILY_TIME_HHMM`. -/
def defaultDailyTimeHHmm : String := "21:00"

/-- A question record as the app sees it (the client `Question` shape of
`src/types`, which `toQuestion` in supabase.ts produces from a DB row;
`none` in an optional field is a `NULL`/`undefined` column). -/
structure Question where
  id : Int
  groupId : Option Int
  question : String
  answerType : String
  min : Option Int
  max : Option Int
  step : Option Int
  options : Option (List String)
  placeholder : Option String
  unit : Option String
  order : Option Int
  active : Option Bool
  askOncePerDay : Option Bool
  timeOfDay : String
  refDay : String
deriving DecidableEq, Repr

/-- `Omit<Question, "id">` — the argument of `supaInsertQuestion`. -/
structure QuestionInput where
  groupId : Option Int
  question : String
  answerType : String
  min : Option Int
  max : Option Int
  step : Option Int
  options : Option (List String)
  placeholder : Option String
  unit : Option String
  order : Option Int
  active : Option Bool
  askOncePerDay : Option Bool
  timeOfDay : String
  refDay : String
deriving DecidableEq, Repr

/-- A diary-entry value (`boolean | number | string | string[]` in the DB;
the scheduler only ever writes numbers and strings). -/
inductive EntryValue where
  | num (n : Int)
  | str (s : String)
deriving DecidableEq, Repr

/-- The client `DiaryEntry` shape (argument of `supaSetDiaryEntry`). -/
structure DiaryEntry where
  id : Int
  questionID : Int
  date : String
  time : String
  value : EntryValue
  forDay : Option String
deriving DecidableEq, Repr

/-- A row of the `diary_entries` table (the fields `toDiaryEntryInsert`
writes, plus the DB-assigned id). -/
structure EntryRow where
  id : Int
  question_id : Int
  date : String
  time : String
  value : EntryValue
  for_day : String
deriving DecidableEq, Repr

/-- The remote data store (Supabase tables), with identity counters and a
counter of diary-entry write operations. -/
structure RemoteStore where
  questions : List Question
  nextQuestionId : Int
  questionInserts : Nat
  entries : List EntryRow
  nextEntryId : Int
  entryWrites : Nat
deriving DecidableEq, Repr

/-- The ids of the four auto questions (`UsageQuestionIds`). -/
structure UsageQuestionIds where
  totalMinutes : Int
  socialMinutes : Int
  musicMinutes : Int
  lastApp : Int
deriving DecidableEq, Repr

/-- `AsyncStorage`, restricted to the three keys the scheduler uses.
`qidsCache` models the stored JSON string for `usage:questionIds.v1`:
`none` = key absent, `some none` = present but `JSON.parse` fails or
`areValidQids` rejects it, `some (some q)` = present and valid.
`setCount` counts `setItem` calls. -/
structure LocalStore where
  lastSubmittedISODate : Option String
  dailyTargetHHmm : Option String
  qidsCache : Option (Option UsageQuestionIds)
  setCount : Nat
deriving DecidableEq, Repr

/-- All mutable persisted state. -/
structure World where
  storage : LocalStore
  store : RemoteStore
deriving DecidableEq, Repr

/-- Ambient read-only platform facts.  `usageAccessGranted = none` models
the native `isUsageAccessGranted()` call throwing. -/
structure Env where
  platformIsAndroid : Bool
  supabaseConfigured : Bool
  nativeModuleLinked : Bool
  usageAccessGranted : Option Bool
deriving DecidableEq, Repr

/-- The `lastApp` field of a collector summary. -/
structure LastApp where
  packageName : String
  label : Option String
deriving DecidableEq, Repr

/-- `UsageSummary` (usageNative.ts), restricted to the fields
`collectAndSubmit` reads. -/
structure UsageSummary where
  totalScreenTimeMs : Int
  socialMs : Int
  musicMs : Int
  lastApp : Option LastApp
deriving DecidableEq, Repr

/-- Errors the embedded operations can raise. -/
inductive SchedulerError where
  | invalidTimeFormat
  | collectorFailed
deriving DecidableEq, Repr

/-! ## `usageNative.ts` / `supabase.ts` operations -/

/-- `isUsageStatsAvailable` (usageNative.ts): Android and the native module
present with the required methods. -/
def isUsageStatsAvailable (env : Env) : Bool :=
  env.platformIsAndroid && env.nativeModuleLinked

/-- `hasUsageAccess` (usageNative.ts): `false` off Android or without the
module; otherwise the native query, with a thrown error caught and mapped
to `false`. -/
def hasUsageAccess (env : Env) : Bool :=
  if !env.platformIsAndroid || !isUsageStatsAvailable env then false
  else
    match env.usageAccessGranted with
    | some b => b
    | none => false

/-- `isSupabaseConfigured` (supabase.ts): both env vars present. -/
def isSupabaseConfigured (env : Env) : Bool :=
  env.supabaseConfigured

/-- The `active.is.null OR active.eq.true` filter of `supaGetQuestions`. -/
def activeOk (q : Question) : Bool :=
  q.active.getD true

/-- The `ORDER BY "order" ASC NULLS FIRST, id ASC` comparison of
`supaGetQuestions`. -/
def questionLE (a b : Question) : Bool :=
  match a.order, b.order with
  | none, none => a.id ≤ b.id
  | none, some _ => true
  | some _, none => false
  | some x, some y => x < y || (x = y && a.id ≤ b.id)

/-- `supaGetQuestions` (supabase.ts): active (or `NULL`-active) questions,
ordered by `order` (nulls first) then id. -/
def supaGetQuestions (rs : RemoteStore) : List Question :=
  List.insertionSort (fun a b => questionLE a b = true) (rs.questions.filter activeOk)

/-- `supaInsertQuestion` (supabase.ts): build the insert payload (with the
column defaults the mapping applies), let the DB assign the next id, append
the row, and return it (as `toQuestion` round-trips it). -/
def supaInsertQuestion (input : QuestionInput) (rs : RemoteStore) :
    Question × RemoteStore :=
  let row : Question :=
    { id := rs.nextQuestionId
      groupId := input.groupId
      question := input.question
      answerType := input.answerType
      min := input.min
      max := input.max
      step := input.step
      options := input.options
      placeholder := input.placeholder
      unit := input.unit
      order := some (input.order.getD 0)
      active := some (input.active.getD true)
      askOncePerDay := some (input.askOncePerDay.getD false)
      timeOfDay := input.timeOfDay
      refDay := input.refDay }
  (row,
    { rs with
      questions := rs.questions ++ [row]
      nextQuestionId := rs.nextQuestionId + 1
      questionInserts := rs.questionInserts + 1 })

/-- `String(entry.forDay ?? "today")`. -/
def entryForDay (e : DiaryEntry) : String :=
  e.forDay.getD "today"

/-- `toDiaryEntryInsert` (supabase.ts), with the DB-assigned id. -/
def toEntryRow (id : Int) (e : DiaryEntry) : EntryRow :=
  { id := id
    question_id := e.questionID
    date := e.date
    time := e.time
    value := e.value
    for_day := entryForDay e }

/-- The `(question_id, date, for_day)` filter `supaSetDiaryEntry` deletes
by. -/
def sameEntryKey (e : DiaryEntry) (r : EntryRow) : Bool :=
  r.question_id == e.questionID && r.date == e.date && r.for_day == entryForDay e

/-- `supaSetDiaryEntry` (supabase.ts): delete every row for
`(question_id, date, for_day)`, then insert the fresh value. -/
def supaSetDiaryEntry (e : DiaryEntry) (rs : RemoteStore) : RemoteStore :=
  let afterDelete := rs.entries.filter (fun r => !sameEntryKey e r)
  { rs with
    entries := afterDelete ++ [toEntryRow rs.nextEntryId e]
    nextEntryId := rs.nextEntryId + 1
    entryWrites := rs.entryWrites + 1 }

/-! ## `usageScheduler.ts` operations -/

/-- `setDailyTargetTime` (usageScheduler.ts): validate `^\d{2}:\d{2}$`,
else throw `Invalid time format`. -/
def setDailyTargetTime (hhmm : String) (st : LocalStore) :
    Except SchedulerError Unit × LocalStore :=
  if matchesHHmm hhmm then
    (.ok (), { st with dailyTargetHHmm := some hhmm, setCount := st.setCount + 1 })
  else
    (.error .invalidTimeFormat, st)

/-- `getDailyTargetTime` (usageScheduler.ts): the stored value when present
and regex-valid, else the `"21:00"` default. -/
def getDailyTargetTime (st : LocalStore) : String :=
  match st.dailyTargetHHmm with
  | some v => if matchesHHmm v then v else defaultDailyTimeHHmm
  | none => defaultDailyTimeHHmm

/-- `isSubmissionDue` (usageScheduler.ts).  When `hhmmToMinutes` is `NaN`
(`none`) the JS guard `minsNow < minsTarget` is false, so the check
proceeds to `return true`. -/
def isSubmissionDue (st : LocalStore) (now : JsDate) (targetHHmm : String) : Bool :=
  let todayISO := toISODate now
  if st.lastSubmittedISODate = some todayISO then false
  else
    let minsNow := toMinutesSinceMidnight now
    match hhmmToMinutes targetHHmm with
    | none => true
    | some minsTarget => if minsNow < minsTarget then false else true

/-- `markSubmittedForToday` (usageScheduler.ts). -/
def markSubmittedForToday (now : JsDate) (st : LocalStore) : LocalStore :=
  { st with
    lastSubmittedISODate := some (toISODate now)
    setCount := st.setCount + 1 }

/-- `summary.lastApp?.label || summary.lastApp?.packageName || "Unbekannt"`
(JS `||`: the empty string is falsy). -/
def lastAppLabelOf (la : Option LastApp) : String :=
  match la with
  | none => "Unbekannt"
  | some app =>
    let l := app.label.getD ""
    if l ≠ "" then l
    else if app.packageName ≠ "" then app.packageName
    else "Unbekannt"

/-- The JS `Map` built from `all.map(q => [q.question, q])` followed by
`.get(text)`: for a duplicated key the later entry overwrites the earlier
one, so the lookup returns the last question with that text. -/
def lookupByText (all : List Question) (text : String) : Option Question :=
  all.reverse.find? (fun q => q.question == text)

/-- One `ensure(text, answerType, unit)` closure call inside
`ensureUsageQuestions`: reuse the id found by text, or insert a new
question ordered at `all.length + 1` (`(all?.length || 0) + 1`). -/
def ensureOne (all : List Question) (text answerType : String)
    (unit : Option String) (rs : RemoteStore) : Int × RemoteStore :=
  match lookupByText all text with
  | some existing => (existing.id, rs)
  | none =>
    let (created, rs') := supaInsertQuestion
      { groupId := none
        question := text
        answerType := answerType
        min := if answerType = "number" then some 0 else none
        max := none
        step := none
        options := none
        placeholder := none
        unit := unit
        order := some ((all.length : Int) + 1)
        active := some true
        askOncePerDay := none
        timeOfDay := "evening"
        refDay := "today" } rs
    (created.id, rs')

/-- The cache-miss path of `ensureUsageQuestions` (usageScheduler.ts,
lines after the cache check): fetch all questions once, resolve each of
the four texts against that single snapshot, cache and return the ids. -/
def resolveUsageQuestions (st : LocalStore) (rs : RemoteStore) :
    UsageQuestionIds × LocalStore × RemoteStore :=
  let all := supaGetQuestions rs
  let (totalId, rs1) := ensureOne all qTextTotal "number" (some "Min") rs
  let (socialId, rs2) := ensureOne all qTextSocial "number" (some "Min") rs1
  let (musicId, rs3) := ensureOne all qTextMusic "number" (some "Min") rs2
  let (lastAppId, rs4) := ensureOne all qTextLastApp "text" none rs3
  let qids : UsageQuestionIds :=
    { totalMinutes := totalId
      socialMinutes := socialId
      musicMinutes := musicId
      lastApp := lastAppId }
  (qids,
    { st with qidsCache := some (some qids), setCount := st.setCount + 1 },
    rs4)

/-- `ensureUsageQuestions` (usageScheduler.ts): return the cached ids when
the cached JSON parses and validates; otherwise resolve the four
auto-questions against the store (lookup by exact text or insert) and
cache the result. -/
def ensureUsageQuestions (st : LocalStore) (rs : RemoteStore) :
    UsageQuestionIds × LocalStore × RemoteStore :=
  match st.qidsCache with
  | some (some parsed) => (parsed, st, rs)
  | _ => resolveUsageQuestions st rs

/-- `CollectOptions` (usageScheduler.ts); `atDate` is the option the source
names `at` (a reserved word here). -/
structure CollectOptions where
  atDate : Option JsDate
  targetHHmm : Option String
  enforce : Bool
deriving DecidableEq, Repr

/-- `collectAndSubmit` (usageScheduler.ts): query the collector, convert to
minutes, resolve the auto-question ids, and write the four entries through
`supaSetDiaryEntry`.  A collector rejection propagates before any write. -/
def collectAndSubmit (opts : CollectOptions) (defaultNow : JsDate)
    (coll : Except Unit UsageSummary) (w : World) :
    Except SchedulerError Unit × World :=
  let now := opts.atDate.getD defaultNow
  let todayISO := toISODate now
  let timeHHmm := opts.targetHHmm.getD (toHHmm now)
  match coll with
  | .error _ => (.error .collectorFailed, w)
  | .ok summary =>
    let totalMinutes := msToMinutes summary.totalScreenTimeMs
    let socialMinutes := msToMinutes summary.socialMs
    let musicMinutes := msToMinutes summary.musicMs
    let lastAppLabel := lastAppLabelOf summary.lastApp
    let (qids, st1, rs1) := ensureUsageQuestions w.storage w.store
    let entries : List DiaryEntry :=
      [ { id := 0, questionID := qids.totalMinutes, date := todayISO,
          time := timeHHmm, value := .num totalMinutes, forDay := some "today" },
        { id := 0, questionID := qids.socialMinutes, date := todayISO,
          time := timeHHmm, value := .num socialMinutes, forDay := some "today" },
        { id := 0, questionID := qids.musicMinutes, date := todayISO,
          time := timeHHmm, value := .num musicMinutes, forDay := some "today" },
        { id := 0, questionID := qids.lastApp, date := todayISO,
          time := timeHHmm, value := .str lastAppLabel, forDay := some "today" } ]
    let rs2 := entries.foldl (fun rs e => supaSetDiaryEntry e rs) rs1
    (.ok (), { storage := st1, store := rs2 })

/-- `runIfDueNow` (usageScheduler.ts): the periodic entry point.  The four
preconditions short-circuit to `false`; otherwise the due-check gates the
collect-and-submit sequence and the submission mark. -/
def runIfDueNow (env : Env) (now : JsDate) (coll : Except Unit UsageSummary)
    (w : World) : Except SchedulerError Bool × World :=
  if !env.platformIsAndroid then (.ok false, w)
  else if !isSupabaseConfigured env then (.ok false, w)
  else if !isUsageStatsAvailable env then (.ok false, w)
  else if !hasUsageAccess env then (.ok false, w)
  else
    let target := getDailyTargetTime w.storage
    if !isSubmissionDue w.storage now target then (.ok false, w)
    else
      match collectAndSubmit { atDate := some now, targetHHmm := some target, enforce := false }
          now coll w with
      | (.error e, w1) => (.error e, w1)
      | (.ok _, w1) => (.ok true, { w1 with storage := markSubmittedForToday now w1.storage })

/-! ## Concrete fixtures used by witnesses and counterexamples -/

/-- A fully permissive environment (Android, configured, linked, granted). -/
def demoEnv : Env := ⟨true, true, true, some true⟩

/-- 2025-06-15, 21:00 local time. -/
def demoDate1 : JsDate := ⟨2025, 5, 15, 21, 0⟩

/-- 2025-06-15, 21:30 local time. -/
def demoDate2 : JsDate := ⟨2025, 5, 15, 21, 30⟩

/-- A concrete collector summary: one hour of screen time. -/
def demoSummary : UsageSummary := ⟨3600000, 0, 0, none⟩

/-- Empty persisted state. -/
def demoWorld : World := ⟨⟨none, none, none, 0⟩, ⟨[], 1, 0, [], 1, 0⟩⟩

/-- An unrelated pre-existing question (active, order 5). -/
def stimQuestion : Question :=
  ⟨1, none, "Stimmung?", "number", none, none, none, none, none, none,
   some 5, some true, none, "both", "today"⟩

/-- A store holding only `stimQuestion`. -/
def rsWithStim : RemoteStore := ⟨[stimQuestion], 2, 0, [], 1, 0⟩

/-- An empty local store (no cache, no mark, no target). -/
def stNoCache : LocalStore := ⟨none, none, none, 0⟩

/-! ## Theorems -/

/-- Helper: with no structurally valid cached ids the cache-miss path
runs. -/
theorem ensureUsageQuestions_miss (st : LocalStore) (rs : RemoteStore)
    (hmiss : ∀ q, st.qidsCache ≠ some (some q)) :
    ensureUsageQuestions st rs = resolveUsageQuestions st rs := by
  unfold ensureUsageQuestions
  rcases hc : st.qidsCache with _ | ⟨_ | q⟩
  · rfl
  · rfl
  · exact absurd hc (hmiss q)

/-- C7: the millisecond-to-minute conversion maps `0 ms` to `0`, `59999 ms`
to `1`, `-1 ms` to `0` and `90000 ms` to `2`; every result is a
nonnegative integer, and on nonnegative inputs the chosen minute is within
half a minute of the exact quotient (round to nearest, ties up). -/
theorem msToMinutes_spec :
    msToMinutes 0 = 0 ∧ msToMinutes 59999 = 1 ∧ msToMinutes (-1) = 0 ∧
    msToMinutes 90000 = 2 ∧
    (∀ ms : Int, 0 ≤ msToMinutes ms) ∧
    (∀ ms : Int, 0 ≤ ms →
      60000 * msToMinutes ms - ms ≤ 30000 ∧ ms - 60000 * msToMinutes ms < 30000) := by
  refine ⟨by decide, by decide, by decide, by decide, ?_, ?_⟩
  · intro ms
    exact le_max_left _ _
  · intro ms h
    unfold msToMinutes
    rw [Int.fdiv_eq_ediv _ (by norm_num)]
    omega

/-- Witness for the conditional part of `msToMinutes_spec` at `ms = 120000`. -/
theorem msToMinutes_spec_witness :
    60000 * msToMinutes 120000 - 120000 ≤ 30000 ∧
    120000 - 60000 * msToMinutes 120000 < 30000 :=
  msToMinutes_spec.2.2.2.2.2 120000 (by decide)

/-- C8: `setDailyTargetTime` succeeds exactly on strings matching
`^\d{2}:\d{2}$`; `"9:00"` is rejected with the invalid-format error and
leaves the store untouched, while `"23:59"` is accepted and is returned
verbatim by a subsequent `getDailyTargetTime`. -/
theorem setDailyTargetTime_spec :
    (∀ (s : String) (st : LocalStore),
      (setDailyTargetTime s st).1 = .ok () ↔ matchesHHmm s = true) ∧
    (∀ st : LocalStore, setDailyTargetTime "9:00" st = (.error .invalidTimeFormat, st)) ∧
    (∀ st : LocalStore,
      (setDailyTargetTime "23:59" st).1 = .ok () ∧
      getDailyTargetTime (setDailyTargetTime "23:59" st).2 = "23:59") := by
  refine ⟨?_, ?_, ?_⟩
  · intro s st
    unfold setDailyTargetTime
    by_cases h : matchesHHmm s <;> simp [h]
  · intro st
    have h : matchesHHmm "9:00" = false := by decide
    unfold setDailyTargetTime
    simp [h]
  · intro st
    have h : matchesHHmm "23:59" = true := by decide
    unfold setDailyTargetTime getDailyTargetTime
    simp [h]

/-- C10: `hasUsageAccess` returns `false` (rather than raising) on
non-Android platforms, when the native usage-stats module is not linked,
and when the native permission query itself throws. -/
theorem hasUsageAccess_safe :
    (∀ env : Env, env.platformIsAndroid = false → hasUsageAccess env = false) ∧
    (∀ env : Env, env.nativeModuleLinked = false → hasUsageAccess env = false) ∧
    (∀ env : Env, env.usageAccessGranted = none → hasUsageAccess env = false) := by
  refine ⟨?_, ?_, ?_⟩
  · intro env h
    simp [hasUsageAccess, h]
  · intro env h
    simp [hasUsageAccess, isUsageStatsAvailable, h]
  · intro env h
    cases hA : env.platformIsAndroid
    · simp [hasUsageAccess, hA]
    · cases hL : env.nativeModuleLinked
      · simp [hasUsageAccess, isUsageStatsAvailable, hA, hL]
      · simp [hasUsageAccess, isUsageStatsAvailable, hA, hL, h]

/-- Witness for `hasUsageAccess_safe`: the three failure modes at concrete
environments. -/
theorem hasUsageAccess_safe_witness :
    hasUsageAccess ⟨false, true, true, some true⟩ = false ∧
    hasUsageAccess ⟨true, true, false, some true⟩ = false ∧
    hasUsageAccess ⟨true, true, true, none⟩ = false :=
  ⟨hasUsageAccess_safe.1 _ rfl, hasUsageAccess_safe.2.1 _ rfl,
   hasUsageAccess_safe.2.2 _ rfl⟩

/-- C9: `supaSetDiaryEntry` has replace semantics: afterwards the store
holds exactly one entry for the `(questionId, date, dayReference)` triple
of the written entry — the freshly written one — and every row with a
different triple is kept exactly as before.  Each call counts as one
diary-entry write. -/
theorem supaSetDiaryEntry_replace :
    ∀ (e : DiaryEntry) (rs : RemoteStore),
      (((supaSetDiaryEntry e rs).entries.filter (fun r => sameEntryKey e r)).map
          (fun r => (r.question_id, r.date, r.time, r.value, r.for_day)))
        = [(e.questionID, e.date, e.time, e.value, entryForDay e)] ∧
      (∀ r : EntryRow, sameEntryKey e r = false →
        (r ∈ (supaSetDiaryEntry e rs).entries ↔ r ∈ rs.entries)) ∧
      (supaSetDiaryEntry e rs).entryWrites = rs.entryWrites + 1 := by
  intro e rs
  have hnew : sameEntryKey e (toEntryRow rs.nextEntryId e) = true := by
    simp [sameEntryKey, toEntryRow]
  refine ⟨?_, ?_, rfl⟩
  · have hrepr : (supaSetDiaryEntry e rs).entries
        = rs.entries.filter (fun r => !sameEntryKey e r) ++ [toEntryRow rs.nextEntryId e] := rfl
    have h0 : List.filter (fun r => sameEntryKey e r)
        (rs.entries.filter (fun r => !sameEntryKey e r)) = [] := by
      simp [List.filter_filter]
    have h1 : List.filter (fun r => sameEntryKey e r) [toEntryRow rs.nextEntryId e]
        = [toEntryRow rs.nextEntryId e] := by
      simp [hnew]
    rw [hrepr, List.filter_append, h0, h1]
    simp [toEntryRow]
  · intro r hr
    simp only [supaSetDiaryEntry, List.mem_append, List.mem_filter, List.mem_singleton]
    constructor
    · rintro (⟨hmem, _⟩ | hr_eq)
      · exact hmem
      · rw [hr_eq] at hr
        rw [hnew] at hr
        exact absurd hr (by simp)
    · intro hmem
      exact Or.inl ⟨hmem, by simp [hr]⟩

/-- Witness for `supaSetDiaryEntry_replace`: a concrete write over a store
holding one matching and one unrelated row. -/
theorem supaSetDiaryEntry_replace_witness :
    (((supaSetDiaryEntry
          ⟨0, 7, "2025-06-15", "21:00", .num 42, some "today"⟩
          ⟨[], 1, 0,
           [⟨1, 7, "2025-06-15", "08:00", .num 5, "today"⟩,
            ⟨2, 9, "2025-06-15", "08:00", .num 6, "today"⟩], 3, 0⟩).entries.filter
        (fun r => sameEntryKey ⟨0, 7, "2025-06-15", "21:00", .num 42, some "today"⟩ r)).map
          (fun r => (r.question_id, r.date, r.time, r.value, r.for_day)))
      = [(7, "2025-06-15", "21:00", .num 42, "today")] ∧
    ((⟨2, 9, "2025-06-15", "08:00", .num 6, "today"⟩ : EntryRow) ∈
        (supaSetDiaryEntry
          ⟨0, 7, "2025-06-15", "21:00", .num 42, some "today"⟩
          ⟨[], 1, 0,
           [⟨1, 7, "2025-06-15", "08:00", .num 5, "today"⟩,
            ⟨2, 9, "2025-06-15", "08:00", .num 6, "today"⟩], 3, 0⟩).entries ↔
      (⟨2, 9, "2025-06-15", "08:00", .num 6, "today"⟩ : EntryRow) ∈
        ([⟨1, 7, "2025-06-15", "08:00", .num 5, "today"⟩,
          ⟨2, 9, "2025-06-15", "08:00", .num 6, "today"⟩] : List EntryRow)) :=
  ⟨(supaSetDiaryEntry_replace _ _).1,
   (supaSetDiaryEntry_replace _ _).2.1 _ (by decide)⟩

/-- Helper: an invocation that fails a precondition or whose due-check
fails returns `(ok false, unchanged world)`. -/
theorem runIfDueNow_eq_skip (env : Env) (now : JsDate)
    (coll : Except Unit UsageSummary) (w : World)
    (h : env.platformIsAndroid = false ∨ isSupabaseConfigured env = false ∨
         isUsageStatsAvailable env = false ∨ hasUsageAccess env = false ∨
         isSubmissionDue w.storage now (getDailyTargetTime w.storage) = false) :
    runIfDueNow env now coll w = (.ok false, w) := by
  rcases h with h | h | h | h | h <;> simp [runIfDueNow, h]

/-- Helper: when every precondition holds and the submission is due, the
invocation is the collect-and-submit sequence followed by the mark
update. -/
theorem runIfDueNow_eq_run (env : Env) (now : JsDate)
    (coll : Except Unit UsageSummary) (w : World)
    (h1 : env.platformIsAndroid = true) (h2 : isSupabaseConfigured env = true)
    (h3 : isUsageStatsAvailable env = true) (h4 : hasUsageAccess env = true)
    (h5 : isSubmissionDue w.storage now (getDailyTargetTime w.storage) = true) :
    runIfDueNow env now coll w =
      match collectAndSubmit
          { atDate := some now, targetHHmm := some (getDailyTargetTime w.storage),
            enforce := false } now coll w with
      | (.error e, w1) => (.error e, w1)
      | (.ok _, w1) =>
        (.ok true, { storage := markSubmittedForToday now w1.storage, store := w1.store }) := by
  simp [runIfDueNow, h1, h2, h3, h4, h5]

/-- C6: each of the four preconditions of `runIfDueNow` short-circuits, in
order, to a `(did not run, unchanged state)` result without raising: the
later precondition values, the clock, the collector behaviour and the
stored state are irrelevant once an earlier precondition fails. -/
theorem runIfDueNow_precondition_shortcircuit :
    (∀ (env : Env) (now : JsDate) (coll : Except Unit UsageSummary) (w : World),
      env.platformIsAndroid = false →
      runIfDueNow env now coll w = (.ok false, w)) ∧
    (∀ (env : Env) (now : JsDate) (coll : Except Unit UsageSummary) (w : World),
      env.platformIsAndroid = true → isSupabaseConfigured env = false →
      runIfDueNow env now coll w = (.ok false, w)) ∧
    (∀ (env : Env) (now : JsDate) (coll : Except Unit UsageSummary) (w : World),
      env.platformIsAndroid = true → isSupabaseConfigured env = true →
      isUsageStatsAvailable env = false →
      runIfDueNow env now coll w = (.ok false, w)) ∧
    (∀ (env : Env) (now : JsDate) (coll : Except Unit UsageSummary) (w : World),
      env.platformIsAndroid = true → isSupabaseConfigured env = true →
      isUsageStatsAvailable env = true → hasUsageAccess env = false →
      runIfDueNow env now coll w = (.ok false, w)) := by
  refine ⟨?_, ?_, ?_, ?_⟩
  · intro env now coll w h
    unfold runIfDueNow
    simp [h]
  · intro env now coll w h1 h2
    unfold runIfDueNow
    simp [h1, h2]
  · intro env now coll w h1 h2 h3
    unfold runIfDueNow
    simp [h1, h2, h3]
  · intro env now coll w h1 h2 h3 h4
    unfold runIfDueNow
    simp [h1, h2, h3, h4]

/-- Witness for `runIfDueNow_precondition_shortcircuit`: the four failure
modes at concrete inputs (the clock is already past the default target and
the collector would fail, yet nothing runs and nothing is written). -/
theorem runIfDueNow_precondition_shortcircuit_witness :
    runIfDueNow ⟨false, true, true, some true⟩ ⟨2025, 5, 15, 22, 0⟩ (.error ())
        ⟨⟨none, none, none, 0⟩, ⟨[], 1, 0, [], 1, 0⟩⟩
      = (.ok false, ⟨⟨none, none, none, 0⟩, ⟨[], 1, 0, [], 1, 0⟩⟩) ∧
    runIfDueNow ⟨true, false, true, some true⟩ ⟨2025, 5, 15, 22, 0⟩ (.error ())
        ⟨⟨none, none, none, 0⟩, ⟨[], 1, 0, [], 1, 0⟩⟩
      = (.ok false, ⟨⟨none, none, none, 0⟩, ⟨[], 1, 0, [], 1, 0⟩⟩) ∧
    runIfDueNow ⟨true, true, false, some true⟩ ⟨2025, 5, 15, 22, 0⟩ (.error ())
        ⟨⟨none, none, none, 0⟩, ⟨[], 1, 0, [], 1, 0⟩⟩
      = (.ok false, ⟨⟨none, none, none, 0⟩, ⟨[], 1, 0, [], 1, 0⟩⟩) ∧
    runIfDueNow ⟨true, true, true, some false⟩ ⟨2025, 5, 15, 22, 0⟩ (.error ())
        ⟨⟨none, none, none, 0⟩, ⟨[], 1, 0, [], 1, 0⟩⟩
      = (.ok false, ⟨⟨none, none, none, 0⟩, ⟨[], 1, 0, [], 1, 0⟩⟩) :=
  ⟨runIfDueNow_precondition_shortcircuit.1 _ _ _ _ rfl,
   runIfDueNow_precondition_shortcircuit.2.1 _ _ _ _ rfl rfl,
   runIfDueNow_precondition_shortcircuit.2.2.1 _ _ _ _ rfl rfl rfl,
   runIfDueNow_precondition_shortcircuit.2.2.2 _ _ _ _ rfl rfl rfl (by decide)⟩

/-- C3: when the usage-collector call fails, `collectAndSubmit` fails as a
whole with the persisted state untouched (no entries written, no questions
created, no cache update), and a periodic run with a failing collector
never updates the SubmissionMark nor any other state, and never reports
"ran". -/
theorem collectorFailure_atomic :
    (∀ (opts : CollectOptions) (dn : JsDate) (w : World),
      collectAndSubmit opts dn (.error ()) w = (.error .collectorFailed, w)) ∧
    (∀ (env : Env) (now : JsDate) (w : World),
      (runIfDueNow env now (.error ()) w).2 = w ∧
      ((runIfDueNow env now (.error ()) w).1 = .ok false ∨
       (runIfDueNow env now (.error ()) w).1 = .error .collectorFailed)) := by
  have hcs : ∀ (opts : CollectOptions) (dn : JsDate) (w : World),
      collectAndSubmit opts dn (.error ()) w = (.error .collectorFailed, w) :=
    fun _ _ _ => rfl
  refine ⟨hcs, ?_⟩
  intro env now w
  have key : runIfDueNow env now (.error ()) w = (.ok false, w) ∨
      runIfDueNow env now (.error ()) w = (.error .collectorFailed, w) := by
    by_cases hall : env.platformIsAndroid = true ∧ isSupabaseConfigured env = true ∧
        isUsageStatsAvailable env = true ∧ hasUsageAccess env = true ∧
        isSubmissionDue w.storage now (getDailyTargetTime w.storage) = true
    · obtain ⟨h1, h2, h3, h4, h5⟩ := hall
      rw [runIfDueNow_eq_run env now (.error ()) w h1 h2 h3 h4 h5, hcs]
      exact Or.inr rfl
    · simp only [not_and_or, Bool.not_eq_true] at hall
      exact Or.inl (runIfDueNow_eq_skip env now (.error ()) w hall)
  rcases key with h | h <;> rw [h] <;> simp

/-- Helper: a run that reports "ran" has persisted the SubmissionMark for
its own local day as its final step. -/
theorem runIfDueNow_ok_true_mark (env : Env) (now : JsDate)
    (coll : Except Unit UsageSummary) (w w1 : World)
    (h : runIfDueNow env now coll w = (.ok true, w1)) :
    w1.storage.lastSubmittedISODate = some (toISODate now) := by
  by_cases hall : env.platformIsAndroid = true ∧ isSupabaseConfigured env = true ∧
      isUsageStatsAvailable env = true ∧ hasUsageAccess env = true ∧
      isSubmissionDue w.storage now (getDailyTargetTime w.storage) = true
  · obtain ⟨h1, h2, h3, h4, h5⟩ := hall
    rw [runIfDueNow_eq_run env now coll w h1 h2 h3 h4 h5] at h
    rcases hres : collectAndSubmit
        { atDate := some now, targetHHmm := some (getDailyTargetTime w.storage),
          enforce := false } now coll w with ⟨ex, w'⟩
    rw [hres] at h
    cases ex with
    | error e => simp at h
    | ok u =>
      have hsnd := congrArg Prod.snd h
      simp only at hsnd
      rw [← hsnd]
      rfl
  · simp only [not_and_or, Bool.not_eq_true] at hall
    rw [runIfDueNow_eq_skip env now coll w hall] at h
    simp at h

/-- C1: once an invocation of `runIfDueNow` has completed successfully
(reporting "ran", hence persisting the SubmissionMark), every subsequent
invocation on the same local calendar day — under any environment and any
collector behaviour — returns "did not run" and leaves the whole persisted
state (including every write counter) unchanged. -/
theorem runIfDueNow_idempotent_same_day :
    ∀ (env1 env2 : Env) (now1 now2 : JsDate)
      (coll1 coll2 : Except Unit UsageSummary) (w w1 : World),
      runIfDueNow env1 now1 coll1 w = (.ok true, w1) →
      toISODate now2 = toISODate now1 →
      runIfDueNow env2 now2 coll2 w1 = (.ok false, w1) := by
  intro env1 env2 now1 now2 coll1 coll2 w w1 h hday
  have hmark := runIfDueNow_ok_true_mark env1 now1 coll1 w w1 h
  apply runIfDueNow_eq_skip
  right; right; right; right
  simp [isSubmissionDue, hmark, hday]

/-- Witness for `runIfDueNow_idempotent_same_day`: a concrete run at 21:00
on an empty state succeeds, and a re-run half an hour later the same day is
a no-op. -/
theorem runIfDueNow_idempotent_same_day_witness :
    runIfDueNow demoEnv demoDate2 (.ok demoSummary)
        ((runIfDueNow demoEnv demoDate1 (.ok demoSummary) demoWorld).2)
      = (.ok false, (runIfDueNow demoEnv demoDate1 (.ok demoSummary) demoWorld).2) :=
  runIfDueNow_idempotent_same_day demoEnv demoEnv demoDate1 demoDate2
    (.ok demoSummary) (.ok demoSummary) demoWorld
    ((runIfDueNow demoEnv demoDate1 (.ok demoSummary) demoWorld).2)
    (Prod.ext rfl rfl) (by decide)

/-- Helper: an ASCII digit is not a colon. -/
theorem digit_ne_colon (c : Char) (h : c.isDigit = true) : ¬ c = ':' := by
  intro hc
  rw [hc] at h
  exact absurd h (by decide)

/-- Helper: splitting a digit-colon-digit character list. -/
theorem splitOnColon_hhmm (a b d e : Char) (ha : a.isDigit = true)
    (hb : b.isDigit = true) (hd : d.isDigit = true) (he : e.isDigit = true) :
    splitOnColon [a, b, ':', d, e] = [[a, b], [d, e]] := by
  simp [splitOnColon, digit_ne_colon a ha, digit_ne_colon b hb,
    digit_ne_colon d hd, digit_ne_colon e he]

/-- Helper: `Number` on a two-digit string. -/
theorem jsNumberDigits_two (x y : Char) (hx : x.isDigit = true)
    (hy : y.isDigit = true) :
    jsNumberDigits [x, y] = some ((x.toNat - 48) * 10 + (y.toNat - 48)) := by
  simp [jsNumberDigits, hx, hy]

/-- Helper: shape of a character list accepted by `matchesHHmm`. -/
theorem matchesHHmm_chars (s : String) (h : matchesHHmm s = true) :
    ∃ a b d e, s.toList = [a, b, ':', d, e] ∧ a.isDigit = true ∧
      b.isDigit = true ∧ d.isDigit = true ∧ e.isDigit = true := by
  unfold matchesHHmm at h
  rcases hl : s.toList with _ | ⟨a, _ | ⟨b, _ | ⟨c, _ | ⟨d, _ | ⟨e, _ | ⟨f, t⟩⟩⟩⟩⟩⟩ <;>
    rw [hl] at h
  · simp at h
  · simp at h
  · simp at h
  · simp at h
  · simp at h
  · simp only [Bool.and_eq_true, beq_iff_eq] at h
    obtain ⟨⟨⟨⟨ha, hb⟩, hc⟩, hd⟩, he⟩ := h
    exact ⟨a, b, d, e, by rw [hc], ha, hb, hd, he⟩
  · simp at h

/-- Helper: a regex-valid `HH:mm` string parses to some minute count. -/
theorem hhmmToMinutes_of_matches (s : String) (h : matchesHHmm s = true) :
    ∃ n, hhmmToMinutes s = some n := by
  obtain ⟨a, b, d, e, hcs, ha, hb, hd, he⟩ := matchesHHmm_chars s h
  refine ⟨((a.toNat - 48) * 10 + (b.toNat - 48)) * 60 +
    ((d.toNat - 48) * 10 + (e.toNat - 48)), ?_⟩
  unfold hhmmToMinutes
  rw [hcs, splitOnColon_hhmm a b d e ha hb hd he]
  show (match jsNumberDigits [a, b], jsNumberDigits [d, e] with
        | some hv, some mv => some (hv * 60 + mv)
        | _, _ => none)
      = some (((a.toNat - 48) * 10 + (b.toNat - 48)) * 60 +
          ((d.toNat - 48) * 10 + (e.toNat - 48)))
  rw [jsNumberDigits_two a b ha hb, jsNumberDigits_two d e hd he]

/-- Helper: whatever is stored, `getDailyTargetTime` returns a regex-valid
`HH:mm` string. -/
theorem getDailyTargetTime_matches (st : LocalStore) :
    matchesHHmm (getDailyTargetTime st) = true := by
  unfold getDailyTargetTime
  rcases st.dailyTargetHHmm with _ | v
  · decide
  · by_cases hv : matchesHHmm v = true
    · simp [hv]
    · simp [hv]
      decide

/-- C2: when no submission has yet happened on the current local day, the
due-check succeeds exactly when minutes-since-local-midnight reach the
parsed stored target (boundary inclusive); in particular, with a stored
target of `"21:00"`, a 20:59 clock is not due and a 21:00 clock is due. -/
theorem isSubmissionDue_threshold :
    (∀ (st : LocalStore) (now : JsDate),
      st.lastSubmittedISODate ≠ some (toISODate now) →
      ∃ t, hhmmToMinutes (getDailyTargetTime st) = some t ∧
        (isSubmissionDue st now (getDailyTargetTime st) = true ↔
          t ≤ toMinutesSinceMidnight now)) ∧
    (∀ (st : LocalStore) (now : JsDate),
      st.dailyTargetHHmm = some "21:00" →
      st.lastSubmittedISODate ≠ some (toISODate now) →
      now.getHours = 20 → now.getMinutes = 59 →
      isSubmissionDue st now (getDailyTargetTime st) = false) ∧
    (∀ (st : LocalStore) (now : JsDate),
      st.dailyTargetHHmm = some "21:00" →
      st.lastSubmittedISODate ≠ some (toISODate now) →
      now.getHours = 21 → now.getMinutes = 0 →
      isSubmissionDue st now (getDailyTargetTime st) = true) := by
  have main : ∀ (st : LocalStore) (now : JsDate),
      st.lastSubmittedISODate ≠ some (toISODate now) →
      ∃ t, hhmmToMinutes (getDailyTargetTime st) = some t ∧
        (isSubmissionDue st now (getDailyTargetTime st) = true ↔
          t ≤ toMinutesSinceMidnight now) := by
    intro st now hlast
    obtain ⟨t, ht⟩ := hhmmToMinutes_of_matches _ (getDailyTargetTime_matches st)
    refine ⟨t, ht, ?_⟩
    unfold isSubmissionDue
    rw [if_neg hlast, ht]
    show (if toMinutesSinceMidnight now < t then false else true) = true ↔
      t ≤ toMinutesSinceMidnight now
    by_cases hlt : toMinutesSinceMidnight now < t
    · rw [if_pos hlt]
      simp only [Bool.false_eq_true, false_iff]
      omega
    · rw [if_neg hlt]
      simp only [true_iff]
      omega
  have htgt : ∀ st : LocalStore, st.dailyTargetHHmm = some "21:00" →
      getDailyTargetTime st = "21:00" := by
    intro st hT
    have hm : matchesHHmm "21:00" = true := by decide
    simp [getDailyTargetTime, hT, hm]
  refine ⟨main, ?_, ?_⟩
  · intro st now hT hlast hh hm
    obtain ⟨t, ht, hiff⟩ := main st now hlast
    rw [htgt st hT] at ht
    have ht' : t = 1260 := by
      have : hhmmToMinutes "21:00" = some 1260 := by decide
      rw [this] at ht
      exact (Option.some.injEq _ _ ▸ ht.symm)
    have hmins : toMinutesSinceMidnight now = 1259 := by
      unfold toMinutesSinceMidnight
      rw [hh, hm]
    rcases hb : isSubmissionDue st now (getDailyTargetTime st) with _ | _
    · rfl
    · have := hiff.mp hb
      rw [ht', hmins] at this
      omega
  · intro st now hT hlast hh hm
    obtain ⟨t, ht, hiff⟩ := main st now hlast
    rw [htgt st hT] at ht
    have ht' : t = 1260 := by
      have : hhmmToMinutes "21:00" = some 1260 := by decide
      rw [this] at ht
      exact (Option.some.injEq _ _ ▸ ht.symm)
    have hmins : toMinutesSinceMidnight now = 1260 := by
      unfold toMinutesSinceMidnight
      rw [hh, hm]
    exact hiff.mpr (by rw [ht', hmins])

/-- Witness for `isSubmissionDue_threshold`: with target `"21:00"` and no
mark, 20:59 is not due and 21:00 is due. -/
theorem isSubmissionDue_threshold_witness :
    isSubmissionDue ⟨none, some "21:00", none, 0⟩ ⟨2025, 5, 15, 20, 59⟩
        (getDailyTargetTime ⟨none, some "21:00", none, 0⟩) = false ∧
    isSubmissionDue ⟨none, some "21:00", none, 0⟩ ⟨2025, 5, 15, 21, 0⟩
        (getDailyTargetTime ⟨none, some "21:00", none, 0⟩) = true :=
  ⟨isSubmissionDue_threshold.2.1 ⟨none, some "21:00", none, 0⟩ ⟨2025, 5, 15, 20, 59⟩
      rfl (by decide) rfl rfl,
   isSubmissionDue_threshold.2.2 ⟨none, some "21:00", none, 0⟩ ⟨2025, 5, 15, 21, 0⟩
      rfl (by decide) rfl rfl⟩

/-- Helper: a successful text lookup returns a member with that text. -/
theorem lookupByText_some (all : List Question) (t : String) (q : Question)
    (h : lookupByText all t = some q) : q ∈ all ∧ q.question = t := by
  unfold lookupByText at h
  refine ⟨List.mem_reverse.mp (List.mem_of_find?_eq_some h), ?_⟩
  have := List.find?_some h
  simpa using this

/-- Helper: the text lookup succeeds whenever some member carries the
text. -/
theorem lookupByText_isSome_of_mem (all : List Question) (t : String)
    (h : ∃ q ∈ all, q.question = t) :
    ∃ q', lookupByText all t = some q' := by
  obtain ⟨q, hq, hqt⟩ := h
  rcases hfind : lookupByText all t with _ | q'
  · unfold lookupByText at hfind
    have := List.find?_eq_none.mp hfind q (List.mem_reverse.mpr hq)
    simp [hqt] at this
  · exact ⟨q', rfl⟩

/-- Helper: membership in the fetched question list is membership in the
stored table plus the active filter. -/
theorem mem_supaGetQuestions (rs : RemoteStore) (q : Question) :
    q ∈ supaGetQuestions rs ↔ q ∈ rs.questions ∧ activeOk q = true := by
  unfold supaGetQuestions
  rw [(List.perm_insertionSort _ _).mem_iff, List.mem_filter]

/-- Helper: the fetched question list has the length of the active
subtable. -/
theorem length_supaGetQuestions (rs : RemoteStore) :
    (supaGetQuestions rs).length = (rs.questions.filter activeOk).length :=
  (List.perm_insertionSort _ _).length_eq

/-- Helper: `ensureOne` on a found text reuses the id and leaves the store
untouched. -/
theorem ensureOne_found (all : List Question) (text a : String)
    (u : Option String) (rs : RemoteStore) (q : Question)
    (h : lookupByText all text = some q) :
    ensureOne all text a u rs = (q.id, rs) := by
  unfold ensureOne
  rw [h]

/-- Helper: one `ensure` step appends at most one question; anything it
appends carries the requested text, is active, and is ordered at
`all.length + 1`; and the returned id belongs to some active stored
question with the requested text. -/
theorem ensureOne_spec (all : List Question) (text a : String)
    (u : Option String) (rs : RemoteStore)
    (hall : ∀ q, q ∈ all → q ∈ rs.questions ∧ activeOk q = true) :
    ∃ created : List Question,
      (ensureOne all text a u rs).2.questions = rs.questions ++ created ∧
      (∀ q ∈ created, q.question = text ∧ q.active = some true ∧
        q.order = some ((all.length : Int) + 1)) ∧
      ∃ q, q ∈ (ensureOne all text a u rs).2.questions ∧ q.question = text ∧
        activeOk q = true ∧ q.id = (ensureOne all text a u rs).1 := by
  rcases hfind : lookupByText all text with _ | q
  · unfold ensureOne
    rw [hfind]
    show ∃ created,
      (supaInsertQuestion _ rs).2.questions = rs.questions ++ created ∧ _ ∧ _
    refine ⟨_, rfl, ?_, ?_⟩
    · intro q hq
      rw [List.mem_singleton] at hq
      subst hq
      exact ⟨rfl, rfl, rfl⟩
    · exact ⟨_, List.mem_append_right _ (List.mem_singleton_self _), rfl, rfl, rfl⟩
  · obtain ⟨hq, hqt⟩ := lookupByText_some all text q hfind
    obtain ⟨hqrs, hact⟩ := hall q hq
    rw [ensureOne_found all text a u rs q hfind]
    exact ⟨[], by simp, by simp, q, hqrs, hqt, hact, rfl⟩

/-- Helper: full description of the cache-miss resolution: it only appends
questions; every appended question is active, carries one of the four auto
texts, and is ordered at `(fetched count) + 1`; and each returned id is the
id of an active stored question with the corresponding text. -/
theorem resolveUsageQuestions_spec (st : LocalStore) (rs : RemoteStore) :
    ∃ created : List Question,
      (resolveUsageQuestions st rs).2.2.questions = rs.questions ++ created ∧
      (∀ q ∈ created, q.active = some true ∧
        q.order = some (((supaGetQuestions rs).length : Int) + 1) ∧
        (q.question = qTextTotal ∨ q.question = qTextSocial ∨
          q.question = qTextMusic ∨ q.question = qTextLastApp)) ∧
      (∃ q, q ∈ (resolveUsageQuestions st rs).2.2.questions ∧
        q.question = qTextTotal ∧ activeOk q = true ∧
        q.id = (resolveUsageQuestions st rs).1.totalMinutes) ∧
      (∃ q, q ∈ (resolveUsageQuestions st rs).2.2.questions ∧
        q.question = qTextSocial ∧ activeOk q = true ∧
        q.id = (resolveUsageQuestions st rs).1.socialMinutes) ∧
      (∃ q, q ∈ (resolveUsageQuestions st rs).2.2.questions ∧
        q.question = qTextMusic ∧ activeOk q = true ∧
        q.id = (resolveUsageQuestions st rs).1.musicMinutes) ∧
      (∃ q, q ∈ (resolveUsageQuestions st rs).2.2.questions ∧
        q.question = qTextLastApp ∧ activeOk q = true ∧
        q.id = (resolveUsageQuestions st rs).1.lastApp) := by
  have hall0 : ∀ q, q ∈ supaGetQuestions rs → q ∈ rs.questions ∧ activeOk q = true :=
    fun q hq => (mem_supaGetQuestions rs q).mp hq
  obtain ⟨c1, he1, hprop1, hex1⟩ :=
    ensureOne_spec (supaGetQuestions rs) qTextTotal "number" (some "Min") rs hall0
  rcases hr1 : ensureOne (supaGetQuestions rs) qTextTotal "number" (some "Min") rs
    with ⟨id1, rs1⟩
  rw [hr1] at he1 hex1
  have hall1 : ∀ q, q ∈ supaGetQuestions rs → q ∈ rs1.questions ∧ activeOk q = true := by
    intro q hq
    obtain ⟨hmem, hact⟩ := hall0 q hq
    exact ⟨by rw [he1]; exact List.mem_append_left _ hmem, hact⟩
  obtain ⟨c2, he2, hprop2, hex2⟩ :=
    ensureOne_spec (supaGetQuestions rs) qTextSocial "number" (some "Min") rs1 hall1
  rcases hr2 : ensureOne (supaGetQuestions rs) qTextSocial "number" (some "Min") rs1
    with ⟨id2, rs2⟩
  rw [hr2] at he2 hex2
  have hall2 : ∀ q, q ∈ supaGetQuestions rs → q ∈ rs2.questions ∧ activeOk q = true := by
    intro q hq
    obtain ⟨hmem, hact⟩ := hall1 q hq
    exact ⟨by rw [he2]; exact List.mem_append_left _ hmem, hact⟩
  obtain ⟨c3, he3, hprop3, hex3⟩ :=
    ensureOne_spec (supaGetQuestions rs) qTextMusic "number" (some "Min") rs2 hall2
  rcases hr3 : ensureOne (supaGetQuestions rs) qTextMusic "number" (some "Min") rs2
    with ⟨id3, rs3⟩
  rw [hr3] at he3 hex3
  have hall3 : ∀ q, q ∈ supaGetQuestions rs → q ∈ rs3.questions ∧ activeOk q = true := by
    intro q hq
    obtain ⟨hmem, hact⟩ := hall2 q hq
    exact ⟨by rw [he3]; exact List.mem_append_left _ hmem, hact⟩
  obtain ⟨c4, he4, hprop4, hex4⟩ :=
    ensureOne_spec (supaGetQuestions rs) qTextLastApp "text" none rs3 hall3
  rcases hr4 : ensureOne (supaGetQuestions rs) qTextLastApp "text" none rs3
    with ⟨id4, rs4⟩
  rw [hr4] at he4 hex4
  have hres : resolveUsageQuestions st rs =
      (⟨id1, id2, id3, id4⟩,
       { st with qidsCache := some (some ⟨id1, id2, id3, id4⟩),
                 setCount := st.setCount + 1 },
       rs4) := by
    unfold resolveUsageQuestions
    simp only [hr1, hr2, hr3, hr4]
  have mono4 : ∀ q : Question, q ∈ rs4.questions → q ∈ rs4.questions := fun _ h => h
  have mono34 : ∀ q : Question, q ∈ rs3.questions → q ∈ rs4.questions := by
    intro q h
    rw [he4]
    exact List.mem_append_left _ h
  have mono24 : ∀ q : Question, q ∈ rs2.questions → q ∈ rs4.questions := by
    intro q h
    apply mono34
    rw [he3]
    exact List.mem_append_left _ h
  have mono14 : ∀ q : Question, q ∈ rs1.questions → q ∈ rs4.questions := by
    intro q h
    apply mono24
    rw [he2]
    exact List.mem_append_left _ h
  rw [hres]
  refine ⟨c1 ++ c2 ++ c3 ++ c4, ?_, ?_, ?_, ?_, ?_, ?_⟩
  · show rs4.questions = _
    rw [he4, he3, he2, he1]
    simp [List.append_assoc]
  · intro q hq
    simp only [List.mem_append] at hq
    rcases hq with ((hq | hq) | hq) | hq
    · obtain ⟨ht, ha, ho⟩ := hprop1 q hq
      exact ⟨ha, ho, Or.inl ht⟩
    · obtain ⟨ht, ha, ho⟩ := hprop2 q hq
      exact ⟨ha, ho, Or.inr (Or.inl ht)⟩
    · obtain ⟨ht, ha, ho⟩ := hprop3 q hq
      exact ⟨ha, ho, Or.inr (Or.inr (Or.inl ht))⟩
    · obtain ⟨ht, ha, ho⟩ := hprop4 q hq
      exact ⟨ha, ho, Or.inr (Or.inr (Or.inr ht))⟩
  · obtain ⟨q, hqm, hqt, hqa, hqi⟩ := hex1
    exact ⟨q, mono14 q hqm, hqt, hqa, hqi⟩
  · obtain ⟨q, hqm, hqt, hqa, hqi⟩ := hex2
    exact ⟨q, mono24 q hqm, hqt, hqa, hqi⟩
  · obtain ⟨q, hqm, hqt, hqa, hqi⟩ := hex3
    exact ⟨q, mono34 q hqm, hqt, hqa, hqi⟩
  · obtain ⟨q, hqm, hqt, hqa, hqi⟩ := hex4
    exact ⟨q, mono4 q hqm, hqt, hqa, hqi⟩

/-- Helper: when each of the four auto texts is already carried by some
active stored question, the resolution inserts nothing (remote store
unchanged) and each returned id is that of a stored question with the
corresponding text. -/
theorem resolveUsageQuestions_all_found (st : LocalStore) (rs : RemoteStore)
    (h1 : ∃ q ∈ rs.questions, q.question = qTextTotal ∧ activeOk q = true)
    (h2 : ∃ q ∈ rs.questions, q.question = qTextSocial ∧ activeOk q = true)
    (h3 : ∃ q ∈ rs.questions, q.question = qTextMusic ∧ activeOk q = true)
    (h4 : ∃ q ∈ rs.questions, q.question = qTextLastApp ∧ activeOk q = true) :
    (resolveUsageQuestions st rs).2.2 = rs ∧
    (∃ q ∈ rs.questions, q.question = qTextTotal ∧
      q.id = (resolveUsageQuestions st rs).1.totalMinutes) ∧
    (∃ q ∈ rs.questions, q.question = qTextSocial ∧
      q.id = (resolveUsageQuestions st rs).1.socialMinutes) ∧
    (∃ q ∈ rs.questions, q.question = qTextMusic ∧
      q.id = (resolveUsageQuestions st rs).1.musicMinutes) ∧
    (∃ q ∈ rs.questions, q.question = qTextLastApp ∧
      q.id = (resolveUsageQuestions st rs).1.lastApp) := by
  have hin : ∀ t : String, (∃ q ∈ rs.questions, q.question = t ∧ activeOk q = true) →
      ∃ q ∈ supaGetQuestions rs, q.question = t := by
    intro t ht
    obtain ⟨q, hq, hqt, hqa⟩ := ht
    exact ⟨q, (mem_supaGetQuestions rs q).mpr ⟨hq, hqa⟩, hqt⟩
  obtain ⟨f1, hf1⟩ := lookupByText_isSome_of_mem _ _ (hin _ h1)
  obtain ⟨f2, hf2⟩ := lookupByText_isSome_of_mem _ _ (hin _ h2)
  obtain ⟨f3, hf3⟩ := lookupByText_isSome_of_mem _ _ (hin _ h3)
  obtain ⟨f4, hf4⟩ := lookupByText_isSome_of_mem _ _ (hin _ h4)
  have hres : resolveUsageQuestions st rs =
      (⟨f1.id, f2.id, f3.id, f4.id⟩,
       { st with qidsCache := some (some ⟨f1.id, f2.id, f3.id, f4.id⟩),
                 setCount := st.setCount + 1 },
       rs) := by
    unfold resolveUsageQuestions
    simp only [ensureOne_found _ _ _ _ _ _ hf1, ensureOne_found _ _ _ _ _ _ hf2,
      ensureOne_found _ _ _ _ _ _ hf3, ensureOne_found _ _ _ _ _ _ hf4]
  have hmem : ∀ (f : Question) (t : String),
      lookupByText (supaGetQuestions rs) t = some f →
      f ∈ rs.questions ∧ f.question = t := by
    intro f t hf
    obtain ⟨hfm, hft⟩ := lookupByText_some _ _ _ hf
    exact ⟨((mem_supaGetQuestions rs f).mp hfm).1, hft⟩
  rw [hres]
  obtain ⟨hm1, ht1⟩ := hmem f1 _ hf1
  obtain ⟨hm2, ht2⟩ := hmem f2 _ hf2
  obtain ⟨hm3, ht3⟩ := hmem f3 _ hf3
  obtain ⟨hm4, ht4⟩ := hmem f4 _ hf4
  exact ⟨rfl, ⟨f1, hm1, ht1, rfl⟩, ⟨f2, hm2, ht2, rfl⟩, ⟨f3, hm3, ht3, rfl⟩,
    ⟨f4, hm4, ht4, rfl⟩⟩

/-- C4: resolving the auto-question registry twice with the cache lost in
between creates no duplicates: the second resolution leaves the remote
store (questions, counters, everything) unchanged, and each identifier it
returns is the identifier of a question already stored after the first
resolution with exactly the corresponding fixed text. -/
theorem ensureUsageQuestions_no_duplicates :
    ∀ (st1 st2 : LocalStore) (rs : RemoteStore),
      (∀ q, st1.qidsCache ≠ some (some q)) →
      (∀ q, st2.qidsCache ≠ some (some q)) →
      ((ensureUsageQuestions st2 (ensureUsageQuestions st1 rs).2.2).2.2
        = (ensureUsageQuestions st1 rs).2.2) ∧
      (∃ q ∈ (ensureUsageQuestions st1 rs).2.2.questions, q.question = qTextTotal ∧
        q.id = (ensureUsageQuestions st2 (ensureUsageQuestions st1 rs).2.2).1.totalMinutes) ∧
      (∃ q ∈ (ensureUsageQuestions st1 rs).2.2.questions, q.question = qTextSocial ∧
        q.id = (ensureUsageQuestions st2 (ensureUsageQuestions st1 rs).2.2).1.socialMinutes) ∧
      (∃ q ∈ (ensureUsageQuestions st1 rs).2.2.questions, q.question = qTextMusic ∧
        q.id = (ensureUsageQuestions st2 (ensureUsageQuestions st1 rs).2.2).1.musicMinutes) ∧
      (∃ q ∈ (ensureUsageQuestions st1 rs).2.2.questions, q.question = qTextLastApp ∧
        q.id = (ensureUsageQuestions st2 (ensureUsageQuestions st1 rs).2.2).1.lastApp) := by
  intro st1 st2 rs hmiss1 hmiss2
  rw [ensureUsageQuestions_miss st1 rs hmiss1]
  obtain ⟨created, hcreated, hprops, hx1, hx2, hx3, hx4⟩ :=
    resolveUsageQuestions_spec st1 rs
  have pick : ∀ (t : String) (i : Int),
      (∃ q, q ∈ (resolveUsageQuestions st1 rs).2.2.questions ∧ q.question = t ∧
        activeOk q = true ∧ q.id = i) →
      ∃ q ∈ (resolveUsageQuestions st1 rs).2.2.questions, q.question = t ∧
        activeOk q = true := by
    intro t i h
    obtain ⟨q, hm, ht, ha, _⟩ := h
    exact ⟨q, hm, ht, ha⟩
  rw [ensureUsageQuestions_miss st2 _ hmiss2]
  obtain ⟨hstore, hr1, hr2, hr3, hr4⟩ :=
    resolveUsageQuestions_all_found st2 (resolveUsageQuestions st1 rs).2.2
      (pick _ _ hx1) (pick _ _ hx2) (pick _ _ hx3) (pick _ _ hx4)
  exact ⟨hstore, hr1, hr2, hr3, hr4⟩

/-- Witness for `ensureUsageQuestions_no_duplicates`: resolving twice over
a concrete store changes nothing the second time. -/
theorem ensureUsageQuestions_no_duplicates_witness :
    ((ensureUsageQuestions stNoCache (ensureUsageQuestions stNoCache rsWithStim).2.2).2.2
      = (ensureUsageQuestions stNoCache rsWithStim).2.2) ∧
    (∃ q ∈ (ensureUsageQuestions stNoCache rsWithStim).2.2.questions,
      q.question = qTextTotal ∧
      q.id = (ensureUsageQuestions stNoCache
        (ensureUsageQuestions stNoCache rsWithStim).2.2).1.totalMinutes) ∧
    (∃ q ∈ (ensureUsageQuestions stNoCache rsWithStim).2.2.questions,
      q.question = qTextSocial ∧
      q.id = (ensureUsageQuestions stNoCache
        (ensureUsageQuestions stNoCache rsWithStim).2.2).1.socialMinutes) ∧
    (∃ q ∈ (ensureUsageQuestions stNoCache rsWithStim).2.2.questions,
      q.question = qTextMusic ∧
      q.id = (ensureUsageQuestions stNoCache
        (ensureUsageQuestions stNoCache rsWithStim).2.2).1.musicMinutes) ∧
    (∃ q ∈ (ensureUsageQuestions stNoCache rsWithStim).2.2.questions,
      q.question = qTextLastApp ∧
      q.id = (ensureUsageQuestions stNoCache
        (ensureUsageQuestions stNoCache rsWithStim).2.2).1.lastApp) :=
  ensureUsageQuestions_no_duplicates stNoCache stNoCache rsWithStim
    (fun _ h => Option.noConfusion h) (fun _ h => Option.noConfusion h)

/-- Counterexample to C5 as stated: over a store whose only question is
active with order value 5 (and none of the auto texts), the resolution
creates the total-minutes auto question with order value `fetched count + 1
= 2`, and `2 > 5` is false — so a newly created auto question is *not*
ordered after every existing question by order value. -/
theorem ensureUsageQuestions_order_counterexample :
    (rsWithStim.questions.all (fun q => !(q.question == qTextTotal))) = true ∧
    (rsWithStim.questions.any (fun q => q.order == some (5 : Int))) = true ∧
    ((ensureUsageQuestions stNoCache rsWithStim).2.2.questions.any
      (fun q => q.question == qTextTotal && q.order == some (2 : Int))) = true ∧
    ¬ ((2 : Int) > 5) := by
  refine ⟨by decide, by decide, by decide, by decide⟩

/-- C5 (amended): every auto-question record newly created by a resolution
is assigned the order value `n + 1`, where `n` is the number of questions
the store fetch returned at the start of the resolution (the same value for
every record created in that resolution); consequently its order exceeds
the order of every fetched question whose order value is at most `n`. -/
theorem ensureUsageQuestions_created_order :
    ∀ (st : LocalStore) (rs : RemoteStore),
      (∀ q, st.qidsCache ≠ some (some q)) →
      ∃ created : List Question,
        (ensureUsageQuestions st rs).2.2.questions = rs.questions ++ created ∧
        (∀ q ∈ created, q.order = some (((supaGetQuestions rs).length : Int) + 1)) ∧
        (∀ q ∈ created, ∀ p ∈ supaGetQuestions rs, ∀ k : Int, p.order = some k →
          k ≤ ((supaGetQuestions rs).length : Int) →
          ∃ j : Int, q.order = some j ∧ k < j) := by
  intro st rs hmiss
  rw [ensureUsageQuestions_miss st rs hmiss]
  obtain ⟨created, hc, hp, _, _, _, _⟩ := resolveUsageQuestions_spec st rs
  refine ⟨created, hc, ?_, ?_⟩
  · intro q hq
    exact (hp q hq).2.1
  · intro q hq p _ k _ hkle
    exact ⟨((supaGetQuestions rs).length : Int) + 1, (hp q hq).2.1, by omega⟩

/-- Witness for `ensureUsageQuestions_created_order` at the concrete
one-question store. -/
theorem ensureUsageQuestions_created_order_witness :
    ∃ created : List Question,
      (ensureUsageQuestions stNoCache rsWithStim).2.2.questions
        = rsWithStim.questions ++ created ∧
      (∀ q ∈ created, q.order = some (((supaGetQuestions rsWithStim).length : Int) + 1)) ∧
      (∀ q ∈ created, ∀ p ∈ supaGetQuestions rsWithStim, ∀ k : Int, p.order = some k →
        k ≤ ((supaGetQuestions rsWithStim).length : Int) →
        ∃ j : Int, q.order = some j ∧ k < j) :=
  ensureUsageQuestions_created_order stNoCache rsWithStim
    (fun _ h => Option.noConfusion h)
